import Mathlib

/-
  Shallow embedding of the Insomnia collection runner
  (packages/insomnia/src/ui/routes/runner.tsx), centred on
  `runCollectionAction`, the execution registry (`runnerExecutions` with
  `startExecution` / `stopExecution` / `updateExecution` / `getExecution` /
  `cancelExecution`), the redirect matcher inside the request loop, and
  `getCurIterationUserUploadData`.

  External collaborators (the per-request executor `sendActionImp`, the
  request-meta lookup, and the external cancel trigger) are modelled as
  oracle functions in an `Env` record, indexed by (iteration, request index).
  Time (the inter-request delay) is not modelled; it does not affect any
  value computed here.
-/

namespace Runner

/-- A selectable request, as in the `RequestType` interface of the source. -/
structure Request where
  id : String
  name : String
  url : String
deriving DecidableEq, Repr, Inhabited

/-- One test assertion outcome produced by the per-request executor. -/
structure RequestTestResult where
  testName : String
  status : String
deriving DecidableEq, Repr, Inhabited

/-- `RunnerResultPerRequest` of the source: per-request outcome row. -/
structure RunnerResultPerRequest where
  requestName : String
  requestUrl : String
  responseCode : Nat
  results : List RequestTestResult
deriving DecidableEq, Repr, Inhabited

/-- `ResponseInfo` of the source: back-reference to a stored response. -/
structure ResponseInfo where
  responseId : String
  originalRequestId : String
  originalRequestName : String
deriving DecidableEq, Repr, Inhabited

/-- One per-iteration upload-data entry (`UserUploadEnvironment`). -/
structure UserUploadEnvironment where
  name : String
  data : List (String × String)
deriving DecidableEq, Repr, Inhabited

/-- The mutable aggregate `testCtx` built by `runCollectionAction`. -/
structure TestCtx where
  source : String
  environmentId : String
  iterations : Nat
  iterationData : List UserUploadEnvironment
  duration : Nat
  testCount : Nat
  avgRespTime : Nat
  iterationResults : List (List RunnerResultPerRequest)
  done : Bool
  responsesInfo : List ResponseInfo
deriving DecidableEq, Repr, Inhabited

/-- Step-tracking sink events (`addExecutionStep`, `updateLatestStepName`,
`completeExecutionStep`). -/
inductive StepEv where
  | add (stepName : String)
  | updateLatest (stepName : String)
  | complete
deriving DecidableEq, Repr, Inhabited

/-- One dispatch to the per-request executor (`sendActionImp`), recorded with
the iteration index, the request index, the request id and the registry value
observed at dispatch time. -/
structure DispatchEv where
  iter : Nat
  idx : Nat
  reqId : String
  registryAt : Option String
  upload : Option UserUploadEnvironment
deriving DecidableEq, Repr, Inhabited

/-- Outcome of one call of the per-request executor, supplied by the
environment: `fails = some msg` models `sendActionImp` throwing; `next`
models `mutatedContext.execution.nextRequestIdOrName` (empty string when
no redirect is requested). -/
structure ExecOut where
  fails : Option String := none
  next : String := ""
  results : List RequestTestResult := []
  responseId : String := ""
  duration : Nat := 1
deriving Repr, Inhabited

/-- Inputs of one run plus the oracles for the external collaborators:
`exec i j` is the executor's behaviour at iteration `i`, request index `j`;
`metaMissing i j` models `models.requestMeta.updateOrCreateByParentId`
returning a falsy value there; `cancelBefore i j` models the external cancel
operation removing the registry entry just before the liveness check that
precedes request `j` of iteration `i`. -/
structure Env where
  requests : List Request
  iterations : Nat
  delay : Nat
  userUploadEnvs : List UserUploadEnvironment
  exec : Nat → Nat → ExecOut
  metaMissing : Nat → Nat → Bool
  cancelBefore : Nat → Nat → Bool

/-- The full state threaded through the run: the pending redirect token, the
in-progress iteration's local result list, the aggregate context, the
execution-registry entry for this workspace (`none` = absent), the step-sink
trace, the request ids forwarded to `cancelRequestById`, and the dispatch
trace. -/
structure RunSt where
  next : String
  curIterRes : List RunnerResultPerRequest
  testCtx : TestCtx
  registry : Option String
  steps : List StepEv
  cancelledReqs : List String
  dispatches : List DispatchEv
deriving DecidableEq, Repr, Inhabited

/-- Index of the last element satisfying the predicate, if any. -/
def findLastIdx? (p : Request → Bool) : List Request → Option Nat
  | [] => none
  | r :: rs =>
    match findLastIdx? p rs with
    | some k => some (k + 1)
    | none => if p r then some 0 else none

/-- JavaScript `Array.prototype.findLastIndex`: index of the last element
satisfying the predicate, `-1` when none does. -/
def findLastIndexI (p : Request → Bool) (l : List Request) : Int :=
  match findLastIdx? p l with
  | some k => (k : Int)
  | none => -1

/-- Strip leading whitespace characters from a character list. -/
def trimLeftChars : List Char → List Char
  | [] => []
  | c :: cs => if c.isWhitespace then trimLeftChars cs else c :: cs

/-- JavaScript `String.prototype.trim`: strip whitespace from both ends,
modelled structurally over the string's characters. -/
def trimStr (s : String) : String :=
  ⟨trimLeftChars (trimLeftChars s.data.reverse).reverse⟩

/-- The redirect-match test of the request loop: candidate `j` matches the
pending target when its id equals the target, or its trimmed name equals the
trimmed target and `j` is the `findLastIndex` of that trimmed name in the
whole request list. -/
def matchesTarget (reqs : List Request) (target : String) (j : Nat) : Bool :=
  let req := reqs.getD j default
  req.id == target ||
    (trimStr req.name == trimStr target &&
      (j : Int) == findLastIndexI (fun r => trimStr r.name == trimStr target) reqs)

/-- `getCurIterationUserUploadData` of the source: the upload entry bound to
iteration `curIteration`. -/
def getCurIterationUserUploadData (userUploadEnvs : List UserUploadEnvironment)
    (curIteration : Nat) : Option UserUploadEnvironment :=
  if userUploadEnvs.length > 0 then
    if userUploadEnvs.length ≥ curIteration + 1 then
      userUploadEnvs.get? curIteration
    else
      userUploadEnvs.get? ((curIteration + 1) % userUploadEnvs.length)
  else none

/-- `cancelExecution` of the source: reads the registry entry; when its value
is truthy (present and non-empty) it forwards cancellation of the active
request, records a `Done` step, completes the step tracker, and removes the
entry; otherwise it does nothing. -/
def cancelExecution (st : RunSt) : RunSt :=
  match st.registry with
  | some activeRequest =>
    if activeRequest ≠ "" then
      { st with
        cancelledReqs := st.cancelledReqs ++ [activeRequest],
        steps := st.steps ++ [.updateLatest "Done", .complete],
        registry := none }
    else st
  | none => st

/-- The `Iteration … - Executing … of … requests - "…"` step name recorded
just before the request-meta lookup. -/
def stepNameEv (env : Env) (i j : Nat) : StepEv :=
  let n := env.requests.length
  let reqName := (env.requests.getD j default).name
  .updateLatest s!"Iteration {i + 1} - Executing {j + 1} of {n} requests - \"{reqName}\""

/-- The dispatch event recorded at the `sendActionImp` call: by then
`updateExecution` has set the registry entry to the request's id, and the
iteration's upload data has been resolved. -/
def mkDispatch (env : Env) (i j : Nat) : DispatchEv :=
  { iter := i, idx := j, reqId := (env.requests.getD j default).id,
    registryAt := some ((env.requests.getD j default).id),
    upload := getCurIterationUserUploadData env.userUploadEnvs i }

/-- The `RunnerResultPerRequest` row built from the result collector after a
successful dispatch at iteration `i`, request index `j`. -/
def mkReqRes (env : Env) (i j : Nat) : RunnerResultPerRequest :=
  { requestName := (env.requests.getD j default).name,
    requestUrl := (env.requests.getD j default).url,
    responseCode := 0, results := (env.exec i j).results }

/-- The `ResponseInfo` appended to the aggregate after a successful dispatch
at iteration `i`, request index `j`. -/
def mkRespInfo (env : Env) (i j : Nat) : ResponseInfo :=
  { responseId := (env.exec i j).responseId,
    originalRequestId := (env.requests.getD j default).id,
    originalRequestName := (env.requests.getD j default).name }

/-- State at the `Request meta not found` throw: the redirect token has been
consumed, `updateExecution` has run, and the step name was recorded, but no
dispatch happened. -/
def stepMetaFailSt (env : Env) (i : Nat) (st : RunSt) (j : Nat) : RunSt :=
  { st with
    next := "",
    registry := some ((env.requests.getD j default).id),
    steps := st.steps ++ [stepNameEv env i j] }

/-- State at an executor throw: like `stepMetaFailSt` but the dispatch was
recorded, while the result collector's data is discarded. -/
def stepFailSt (env : Env) (i : Nat) (st : RunSt) (j : Nat) : RunSt :=
  { stepMetaFailSt env i st j with
    dispatches := st.dispatches ++ [mkDispatch env i j] }

/-- State after a successful dispatch at iteration `i`, request index `j`:
the redirect token is the executor's `nextRequestIdOrName` (or empty), the
request's row joins the iteration's local results, and the aggregate gains
the duration and the `ResponseInfo`. -/
def stepOk (env : Env) (i : Nat) (st : RunSt) (j : Nat) : RunSt :=
  { next := if (env.exec i j).next ≠ "" then (env.exec i j).next else "",
    curIterRes := st.curIterRes ++ [mkReqRes env i j],
    testCtx := { st.testCtx with
      duration := st.testCtx.duration + (env.exec i j).duration,
      responsesInfo := st.testCtx.responsesInfo ++ [mkRespInfo env i j] },
    registry := some ((env.requests.getD j default).id),
    steps := st.steps ++ [stepNameEv env i j],
    cancelledReqs := st.cancelledReqs,
    dispatches := st.dispatches ++ [mkDispatch env i j] }

/-- The body of the inner request loop for iteration `i`, request index `j`:
external-cancel event, liveness check, redirect skip/consume, progress
marker, step name, request-meta invariant, dispatch, redirect recording and
result accumulation, in source order. Errors carry the thrown message and
the state at the throw. -/
def stepBody (env : Env) (i j : Nat) (st : RunSt) :
    Except (String × RunSt) RunSt :=
  let st1 := if env.cancelBefore i j then { st with registry := none } else st
  if st1.registry = none then
    .error ("Runner has been stopped", st1)
  else if st1.next ≠ "" ∧ ¬ matchesTarget env.requests st1.next j then
    .ok st1
  else if env.metaMissing i j then
    .error ("Request meta not found", stepMetaFailSt env i st1 j)
  else
    match (env.exec i j).fails with
    | some msg => .error (msg, stepFailSt env i st1 j)
    | none => .ok (stepOk env i st1 j)

/-- The inner request loop run over an explicit list of request indices. -/
def runReqList (env : Env) (i : Nat) :
    List Nat → RunSt → Except (String × RunSt) RunSt
  | [], st => .ok st
  | j :: rest, st => do
    let st' ← stepBody env i j st
    runReqList env i rest st'

/-- One iteration: reset the redirect token and the local result list, run
the inner loop over all request indices, then append the completed local
result list to `iterationResults`. -/
def runIter (env : Env) (i : Nat) (st : RunSt) :
    Except (String × RunSt) RunSt := do
  let st := { st with next := "", curIterRes := [] }
  let st' ← runReqList env i (List.range env.requests.length) st
  .ok { st' with testCtx := { st'.testCtx with
    iterationResults := st'.testCtx.iterationResults ++ [st'.curIterRes] } }

/-- The outer iteration loop over an explicit list of iteration indices. -/
def runIters (env : Env) :
    List Nat → RunSt → Except (String × RunSt) RunSt
  | [], st => .ok st
  | i :: rest, st => do
    let st' ← runIter env i st
    runIters env rest st'

/-- Closed form of one full iteration in which every request dispatches
successfully: fold `stepOk` over all request indices from a reset local
state, then append the completed local result list to `iterationResults`. -/
def iterOk (env : Env) (st : RunSt) (i : Nat) : RunSt :=
  let st0 : RunSt := { st with next := "", curIterRes := [] }
  let st' := (List.range env.requests.length).foldl (stepOk env i) st0
  { st' with testCtx := { st'.testCtx with
    iterationResults := st'.testCtx.iterationResults ++ [st'.curIterRes] } }

/-- At iteration `i`, request index `j`, the executor requests no redirect
and does not throw, the request meta exists, and no external cancellation
fires. -/
def uniformAt (env : Env) (i j : Nat) : Prop :=
  (env.exec i j).next = "" ∧ (env.exec i j).fails = none ∧
    env.metaMissing i j = false ∧ env.cancelBefore i j = false

/-- The initial `testCtx` literal of `runCollectionAction`. -/
def initCtx (env : Env) : TestCtx :=
  { source := "runner", environmentId := "", iterations := env.iterations,
    iterationData := env.userUploadEnvs, duration := 1, testCount := 0,
    avgRespTime := 0, iterationResults := [], done := false,
    responsesInfo := [] }

/-- State right after `startExecution(workspaceId)` and the `Initializing`
step: the registry entry holds the empty string. -/
def initState (env : Env) : RunSt :=
  { next := "", curIterRes := [], testCtx := initCtx env,
    registry := some "", steps := [.add "Initializing"],
    cancelledReqs := [], dispatches := [] }

/-- The record written by `models.runnerTestResult.create` in the `finally`
block. -/
structure PersistedRecord where
  source : String
  iterations : Nat
  duration : Nat
  avgRespTime : Nat
  iterationResults : List (List RunnerResultPerRequest)
  responsesInfo : List ResponseInfo
deriving DecidableEq, Repr, Inhabited

/-- The fields of the aggregate context that the `finally` block persists. -/
def mkPersistedRecord (ctx : TestCtx) : PersistedRecord :=
  { source := ctx.source, iterations := ctx.iterations,
    duration := ctx.duration, avgRespTime := ctx.avgRespTime,
    iterationResults := ctx.iterationResults,
    responsesInfo := ctx.responsesInfo }

/-- How `runCollectionAction` returns: the final redirect back to the runner
view, or the error-reporting redirect carrying the failure message. A thrown
failure never escapes the action. -/
inductive Outcome where
  | success
  | errorRedirect (msg : String)
deriving DecidableEq, Repr, Inhabited

/-- Everything observable about one run: the outcome, the records written by
the store, and the final state. -/
structure RunResult where
  outcome : Outcome
  persisted : List PersistedRecord
  final : RunSt
deriving DecidableEq, Repr, Inhabited

/-- `runCollectionAction`: initialise, run the double loop inside `try`; on
normal completion record `Done` and complete the step tracker; on a throw,
`catch` runs `cancelExecution` and prepares the error redirect; in both
cases the `finally` block persists the accumulated context exactly once. -/
def runCollectionAction (env : Env) : RunResult :=
  match runIters env (List.range env.iterations) (initState env) with
  | .ok st =>
    let st := { st with steps := st.steps ++ [.updateLatest "Done", .complete] }
    { outcome := .success, persisted := [mkPersistedRecord st.testCtx],
      final := st }
  | .error (msg, st) =>
    let st := cancelExecution st
    { outcome := .errorRedirect msg,
      persisted := [mkPersistedRecord st.testCtx], final := st }

/-- Concrete request fixtures used by the concrete-run theorems. -/
def reqOne : Request := { id := "r1", name := "Req1", url := "u1" }

def reqTwo : Request := { id := "r2", name := "Req2", url := "u2" }

def reqThree : Request := { id := "r3", name := "Req3", url := "u3" }

def uploadA : UserUploadEnvironment := { name := "e0", data := [] }

def uploadB : UserUploadEnvironment := { name := "e1", data := [] }

/-- Two requests, two iterations, no redirects, no failures. -/
def envC1w : Env :=
  { requests := [reqOne, reqTwo], iterations := 2, delay := 0,
    userUploadEnvs := [], exec := fun _ _ => {},
    metaMissing := fun _ _ => false, cancelBefore := fun _ _ => false }

/-- One iteration over two requests; the registry entry is removed just
before the liveness check that precedes request index 1. -/
def envC3cex : Env :=
  { requests := [reqOne, reqTwo], iterations := 1, delay := 0,
    userUploadEnvs := [], exec := fun _ _ => {},
    metaMissing := fun _ _ => false,
    cancelBefore := fun i j => i == 0 && j == 1 }

/-- Two iterations over two requests; the registry entry is removed just
before the liveness check at iteration 1, request index 1. -/
def envC3w : Env :=
  { requests := [reqOne, reqTwo], iterations := 2, delay := 0,
    userUploadEnvs := [], exec := fun _ _ => {},
    metaMissing := fun _ _ => false,
    cancelBefore := fun i j => i == 1 && j == 1 }

/-- One iteration over one request, nothing fails. -/
def envC4cex : Env :=
  { requests := [reqOne], iterations := 1, delay := 0, userUploadEnvs := [],
    exec := fun _ _ => {}, metaMissing := fun _ _ => false,
    cancelBefore := fun _ _ => false }

/-- One iteration over one request, nothing fails. -/
def envC4w : Env :=
  { requests := [reqTwo], iterations := 1, delay := 0, userUploadEnvs := [],
    exec := fun _ _ => {}, metaMissing := fun _ _ => false,
    cancelBefore := fun _ _ => false }

/-- Three requests, no failures. -/
def envC5w : Env :=
  { requests := [reqOne, reqTwo, reqThree], iterations := 1, delay := 0,
    userUploadEnvs := [], exec := fun _ _ => {},
    metaMissing := fun _ _ => false, cancelBefore := fun _ _ => false }

/-- Mid-iteration state in which request 0 has signalled a redirect to the
id of request 2. -/
def stC5w : RunSt := { initState envC5w with next := "r3" }

/-- Requests named `A`, `B`, `A`, with ids unrelated to those names. -/
def reqsC6w : List Request :=
  [{ id := "x1", name := "A", url := "u" },
   { id := "x2", name := "B", url := "u" },
   { id := "x3", name := "A", url := "u" }]

/-- Three requests, no failures. -/
def envC7w : Env :=
  { requests := [reqOne, reqTwo, reqThree], iterations := 1, delay := 0,
    userUploadEnvs := [], exec := fun _ _ => {},
    metaMissing := fun _ _ => false, cancelBefore := fun _ _ => false }

/-- Mid-iteration state with a pending redirect target that matches no
request id and no request name. -/
def stC7w : RunSt := { initState envC7w with next := "nope" }

/-- Two iterations over two requests; the executor throws `boom` at
iteration 0, request index 1. -/
def envC9w : Env :=
  { requests := [reqOne, reqTwo], iterations := 2, delay := 0,
    userUploadEnvs := [],
    exec := fun i j => if i == 0 && j == 1 then { fails := some "boom" } else {},
    metaMissing := fun _ _ => false, cancelBefore := fun _ _ => false }

/-- A state whose registry entry holds the empty string, as between run
start and the first dispatch. -/
def stC10w : RunSt := { (default : RunSt) with registry := some "" }

/-- The state carried by a loop result, whether it returned or threw. -/
def stOf : Except (String × RunSt) RunSt → RunSt
  | .ok st => st
  | .error (_, st) => st

/-- Every recorded dispatch observed the registry entry holding exactly the
id of the request being dispatched. -/
def goodDispatches (l : List DispatchEv) : Prop :=
  ∀ ev ∈ l, ev.registryAt = some ev.reqId

/-! ### Branch lemmas for `stepBody` -/

lemma stepBody_cancelled (env : Env) (i j : Nat) (st : RunSt)
    (hc : env.cancelBefore i j = true) :
    stepBody env i j st =
      .error ("Runner has been stopped", { st with registry := none }) := by
  simp [stepBody, hc]

lemma stepBody_skip (env : Env) (i j : Nat) (st : RunSt)
    (hc : env.cancelBefore i j = false)
    (hreg : st.registry ≠ none)
    (hne : st.next ≠ "")
    (hm : matchesTarget env.requests st.next j = false) :
    stepBody env i j st = .ok st := by
  simp [stepBody, hc, hreg, hne, hm]

lemma stepBody_run (env : Env) (i j : Nat) (st : RunSt)
    (hc : env.cancelBefore i j = false)
    (hreg : st.registry ≠ none)
    (hnext : st.next = "" ∨ matchesTarget env.requests st.next j = true)
    (hmeta : env.metaMissing i j = false)
    (hfail : (env.exec i j).fails = none) :
    stepBody env i j st = .ok (stepOk env i st j) := by
  rcases hnext with h | h <;> simp [stepBody, hc, hreg, hmeta, hfail, h]

lemma stepBody_execFails (env : Env) (i j : Nat) (st : RunSt) (msg : String)
    (hc : env.cancelBefore i j = false)
    (hreg : st.registry ≠ none)
    (hnext : st.next = "" ∨ matchesTarget env.requests st.next j = true)
    (hmeta : env.metaMissing i j = false)
    (hfail : (env.exec i j).fails = some msg) :
    stepBody env i j st = .error (msg, stepFailSt env i st j) := by
  rcases hnext with h | h <;> simp [stepBody, hc, hreg, hmeta, hfail, h]

/-! ### Unfolding lemmas for `runReqList` -/

lemma runReqList_nil (env : Env) (i : Nat) (st : RunSt) :
    runReqList env i [] st = .ok st := rfl

lemma runReqList_cons_ok (env : Env) (i j : Nat) (js : List Nat)
    (st st' : RunSt) (h : stepBody env i j st = .ok st') :
    runReqList env i (j :: js) st = runReqList env i js st' := by
  simp only [runReqList, h]
  rfl

lemma runReqList_cons_error (env : Env) (i j : Nat) (js : List Nat)
    (st : RunSt) (e : String × RunSt) (h : stepBody env i j st = .error e) :
    runReqList env i (j :: js) st = .error e := by
  simp only [runReqList, h]
  rfl

lemma runReqList_append (env : Env) (i : Nat) (l1 l2 : List Nat) (st : RunSt) :
    runReqList env i (l1 ++ l2) st =
      (runReqList env i l1 st).bind (runReqList env i l2) := by
  induction l1 generalizing st with
  | nil => rfl
  | cons j js ih =>
    cases h : stepBody env i j st with
    | ok st' =>
      rw [List.cons_append, runReqList_cons_ok env i j _ st st' h,
        runReqList_cons_ok env i j _ st st' h, ih]
    | error e =>
      rw [List.cons_append, runReqList_cons_error env i j _ st e h,
        runReqList_cons_error env i j _ st e h]
      rfl

lemma runReqList_skip_all (env : Env) (i : Nat) (js : List Nat) (st : RunSt)
    (hne : st.next ≠ "")
    (h : ∀ j ∈ js, matchesTarget env.requests st.next j = false ∧
      env.cancelBefore i j = false)
    (hreg : st.registry ≠ none) :
    runReqList env i js st = .ok st := by
  induction js with
  | nil => rfl
  | cons j js ih =>
    have hj := h j (by simp)
    rw [runReqList_cons_ok env i j js st st
      (stepBody_skip env i j st hj.2 hreg hne hj.1)]
    exact ih (fun j' hj' => h j' (List.mem_cons_of_mem j hj'))

/-! ### The uniform success path as a fold of `stepOk` -/

lemma stepOk_next_of_no_redirect (env : Env) (i : Nat) (st : RunSt) (j : Nat)
    (h : (env.exec i j).next = "") : (stepOk env i st j).next = "" := by
  simp [stepOk, h]

lemma stepOk_registry_ne_none (env : Env) (i : Nat) (st : RunSt) (j : Nat) :
    (stepOk env i st j).registry ≠ none := by
  simp [stepOk]

lemma runReqList_uniform (env : Env) (i : Nat) : ∀ (js : List Nat) (st : RunSt),
    (∀ j ∈ js, uniformAt env i j) → st.next = "" → st.registry ≠ none →
    runReqList env i js st = .ok (js.foldl (stepOk env i) st)
  | [], _, _, _, _ => rfl
  | j :: js, st, hu, hnext, hreg => by
    obtain ⟨hn, hf, hm, hc⟩ := hu j (by simp)
    rw [runReqList_cons_ok env i j js st _
      (stepBody_run env i j st hc hreg (Or.inl hnext) hm hf), List.foldl_cons]
    exact runReqList_uniform env i js (stepOk env i st j)
      (fun j' hj' => hu j' (List.mem_cons_of_mem j hj'))
      (stepOk_next_of_no_redirect env i st j hn)
      (stepOk_registry_ne_none env i st j)

lemma foldl_stepOk_curIterRes (env : Env) (i : Nat) (js : List Nat) (st : RunSt) :
    (js.foldl (stepOk env i) st).curIterRes =
      st.curIterRes ++ js.map (mkReqRes env i) := by
  induction js generalizing st with
  | nil => simp
  | cons j js ih => simp [List.foldl_cons, ih, stepOk]

lemma foldl_stepOk_dispatches (env : Env) (i : Nat) (js : List Nat) (st : RunSt) :
    (js.foldl (stepOk env i) st).dispatches =
      st.dispatches ++ js.map (mkDispatch env i) := by
  induction js generalizing st with
  | nil => simp
  | cons j js ih => simp [List.foldl_cons, ih, stepOk]

lemma foldl_stepOk_iterationResults (env : Env) (i : Nat) (js : List Nat)
    (st : RunSt) :
    (js.foldl (stepOk env i) st).testCtx.iterationResults =
      st.testCtx.iterationResults := by
  induction js generalizing st with
  | nil => rfl
  | cons j js ih => simp [List.foldl_cons, ih, stepOk]

lemma foldl_stepOk_registry (env : Env) (i : Nat) : ∀ (js : List Nat) (st : RunSt),
    (js.foldl (stepOk env i) st).registry =
      (js.map (fun j => some ((env.requests.getD j default).id))).getLastD
        st.registry
  | [], _ => rfl
  | j :: js, st => by
    rw [List.foldl_cons, foldl_stepOk_registry env i js (stepOk env i st j),
      List.map_cons, List.getLastD_cons]
    rfl

lemma getLastD_somes_ne_none (f : Nat → String) : ∀ (l : List Nat)
    (r : Option String), r ≠ none →
    (l.map (fun j => some (f j))).getLastD r ≠ none
  | [], _, h => h
  | a :: t, _, _ => by
    rw [List.map_cons, List.getLastD_cons]
    exact getLastD_somes_ne_none f t (some (f a)) (by simp)

/-! ### Iteration-level lemmas -/

lemma runIter_eq (env : Env) (i : Nat) (st : RunSt) :
    runIter env i st =
      (runReqList env i (List.range env.requests.length)
        { st with next := "", curIterRes := [] }).bind
        (fun st' => .ok { st' with testCtx := { st'.testCtx with
          iterationResults := st'.testCtx.iterationResults ++ [st'.curIterRes] } }) := by
  cases h : runReqList env i (List.range env.requests.length)
      { st with next := "", curIterRes := [] } <;>
    simp only [runIter, h] <;> rfl

lemma runIter_uniform (env : Env) (i : Nat) (st : RunSt)
    (hu : ∀ j ∈ List.range env.requests.length, uniformAt env i j)
    (hreg : st.registry ≠ none) :
    runIter env i st = .ok (iterOk env st i) := by
  rw [runIter_eq, runReqList_uniform env i _ _ hu rfl (by simpa using hreg)]
  rfl

lemma runIters_nil (env : Env) (st : RunSt) : runIters env [] st = .ok st := rfl

lemma runIters_cons_ok (env : Env) (i : Nat) (is : List Nat) (st st' : RunSt)
    (h : runIter env i st = .ok st') :
    runIters env (i :: is) st = runIters env is st' := by
  simp only [runIters, h]
  rfl

lemma runIters_cons_error (env : Env) (i : Nat) (is : List Nat) (st : RunSt)
    (e : String × RunSt) (h : runIter env i st = .error e) :
    runIters env (i :: is) st = .error e := by
  simp only [runIters, h]
  rfl

lemma runIters_append (env : Env) (l1 l2 : List Nat) (st : RunSt) :
    runIters env (l1 ++ l2) st =
      (runIters env l1 st).bind (runIters env l2) := by
  induction l1 generalizing st with
  | nil => rfl
  | cons i is ih =>
    cases h : runIter env i st with
    | ok st' =>
      rw [List.cons_append, runIters_cons_ok env i _ st st' h,
        runIters_cons_ok env i _ st st' h, ih]
    | error e =>
      rw [List.cons_append, runIters_cons_error env i _ st e h,
        runIters_cons_error env i _ st e h]
      rfl

lemma iterOk_iterationResults (env : Env) (st : RunSt) (i : Nat) :
    (iterOk env st i).testCtx.iterationResults =
      st.testCtx.iterationResults ++
        [(List.range env.requests.length).map (mkReqRes env i)] := by
  simp [iterOk, foldl_stepOk_iterationResults, foldl_stepOk_curIterRes]

lemma iterOk_dispatches (env : Env) (st : RunSt) (i : Nat) :
    (iterOk env st i).dispatches =
      st.dispatches ++ (List.range env.requests.length).map (mkDispatch env i) := by
  simp [iterOk, foldl_stepOk_dispatches]

lemma iterOk_registry_ne_none (env : Env) (st : RunSt) (i : Nat)
    (h : st.registry ≠ none) : (iterOk env st i).registry ≠ none := by
  simp only [iterOk, foldl_stepOk_registry]
  exact getLastD_somes_ne_none _ _ _ (by simpa using h)

lemma runIters_uniform (env : Env) : ∀ (is : List Nat) (st : RunSt),
    (∀ i ∈ is, ∀ j ∈ List.range env.requests.length, uniformAt env i j) →
    st.registry ≠ none →
    runIters env is st = .ok (is.foldl (iterOk env) st)
  | [], _, _, _ => rfl
  | i :: is, st, hu, hreg => by
    rw [runIters_cons_ok env i is st _
      (runIter_uniform env i st (hu i (by simp)) hreg), List.foldl_cons]
    exact runIters_uniform env is (iterOk env st i)
      (fun i' hi' => hu i' (List.mem_cons_of_mem i hi'))
      (iterOk_registry_ne_none env st i hreg)

lemma foldl_iterOk_iterationResults (env : Env) : ∀ (is : List Nat) (st : RunSt),
    (is.foldl (iterOk env) st).testCtx.iterationResults =
      st.testCtx.iterationResults ++
        is.map (fun i => (List.range env.requests.length).map (mkReqRes env i))
  | [], _ => by simp
  | i :: is, st => by
    rw [List.foldl_cons, foldl_iterOk_iterationResults env is (iterOk env st i),
      iterOk_iterationResults, List.map_cons]
    simp

lemma foldl_iterOk_dispatches (env : Env) : ∀ (is : List Nat) (st : RunSt),
    (is.foldl (iterOk env) st).dispatches =
      st.dispatches ++
        (is.map (fun i =>
          (List.range env.requests.length).map (mkDispatch env i))).flatten
  | [], _ => by simp
  | i :: is, st => by
    rw [List.foldl_cons, foldl_iterOk_dispatches env is (iterOk env st i),
      iterOk_dispatches, List.map_cons, List.flatten_cons]
    simp

lemma foldl_iterOk_registry_ne_none (env : Env) : ∀ (is : List Nat) (st : RunSt),
    st.registry ≠ none → (is.foldl (iterOk env) st).registry ≠ none
  | [], _, h => h
  | i :: is, st, h => by
    rw [List.foldl_cons]
    exact foldl_iterOk_registry_ne_none env is (iterOk env st i)
      (iterOk_registry_ne_none env st i h)

/-! ### `cancelExecution` facts -/

lemma cancelExecution_testCtx (st : RunSt) :
    (cancelExecution st).testCtx = st.testCtx := by
  unfold cancelExecution
  cases st.registry with
  | none => rfl
  | some r =>
    by_cases h : r ≠ ""
    · simp [h]
    · simp [h]

lemma cancelExecution_dispatches (st : RunSt) :
    (cancelExecution st).dispatches = st.dispatches := by
  unfold cancelExecution
  cases st.registry with
  | none => rfl
  | some r =>
    by_cases h : r ≠ ""
    · simp [h]
    · simp [h]

/-! ### Specification of the last-index search -/

lemma findLastIdx_none_iff (p : Request → Bool) : ∀ (l : List Request),
    findLastIdx? p l = none ↔ ∀ m, m < l.length → p (l.getD m default) = false
  | [] => by simp [findLastIdx?]
  | r :: rs => by
    rw [findLastIdx?]
    cases hfl : findLastIdx? p rs with
    | some k =>
      simp only [hfl]
      constructor
      · intro h
        cases h
      · intro h
        exfalso
        have hnone : findLastIdx? p rs = none := (findLastIdx_none_iff p rs).mpr
          (fun m hm => by
            have := h (m + 1) (by simpa using Nat.succ_lt_succ hm)
            simpa [List.getD_cons_succ] using this)
        rw [hfl] at hnone
        cases hnone
    | none =>
      simp only [hfl]
      by_cases hp : p r = true
      · simp only [if_pos hp]
        constructor
        · intro h
          cases h
        · intro h
          have h0 := h 0 (by simp)
          rw [List.getD_cons_zero, hp] at h0
          cases h0
      · simp only [if_neg hp]
        constructor
        · intro _ m hm
          rcases m with _ | m'
          · rw [List.getD_cons_zero]
            exact Bool.not_eq_true _ |>.mp hp
          · rw [List.getD_cons_succ]
            exact (findLastIdx_none_iff p rs).mp hfl m' (by simpa using hm)
        · intro _
          trivial

lemma findLastIdx_some_iff (p : Request → Bool) : ∀ (l : List Request) (j : Nat),
    findLastIdx? p l = some j ↔
      (j < l.length ∧ p (l.getD j default) = true ∧
        ∀ j', j < j' → j' < l.length → p (l.getD j' default) = false)
  | [], j => by simp [findLastIdx?]
  | r :: rs, j => by
    rw [findLastIdx?]
    cases hfl : findLastIdx? p rs with
    | some k =>
      obtain ⟨hk1, hk2, hk3⟩ := (findLastIdx_some_iff p rs k).mp hfl
      simp only [hfl]
      constructor
      · intro h
        obtain rfl : j = k + 1 := (Option.some.inj h).symm
        refine ⟨by simpa using Nat.succ_lt_succ hk1,
          by simpa [List.getD_cons_succ] using hk2, ?_⟩
        intro j' h1 h2
        rcases j' with _ | m
        · omega
        · rw [List.getD_cons_succ]
          exact hk3 m (by omega) (by simpa using h2)
      · rintro ⟨h1, h2, h3⟩
        rcases j with _ | m
        · exfalso
          have hnone : findLastIdx? p rs = none := (findLastIdx_none_iff p rs).mpr
            (fun m hm => by
              have := h3 (m + 1) (by omega) (by simpa using Nat.succ_lt_succ hm)
              simpa [List.getD_cons_succ] using this)
          rw [hfl] at hnone
          cases hnone
        · have heq : findLastIdx? p rs = some m := (findLastIdx_some_iff p rs m).mpr
            ⟨by simpa using h1, by simpa [List.getD_cons_succ] using h2,
              fun j' hj1 hj2 => by
                have := h3 (j' + 1) (by omega) (by simpa using Nat.succ_lt_succ hj2)
                simpa [List.getD_cons_succ] using this⟩
          rw [hfl] at heq
          cases heq
          rfl
    | none =>
      simp only [hfl]
      by_cases hp : p r = true
      · simp only [if_pos hp]
        constructor
        · intro h
          obtain rfl : j = 0 := (Option.some.inj h).symm
          refine ⟨by simp, by simpa using hp, ?_⟩
          intro j' h1 h2
          rcases j' with _ | m
          · omega
          · rw [List.getD_cons_succ]
            exact (findLastIdx_none_iff p rs).mp hfl m (by simpa using h2)
        · rintro ⟨h1, h2, h3⟩
          rcases j with _ | m
          · rfl
          · exfalso
            have := (findLastIdx_none_iff p rs).mp hfl m (by simpa using h1)
            rw [List.getD_cons_succ] at h2
            rw [this] at h2
            cases h2
      · simp only [if_neg hp]
        constructor
        · intro h
          cases h
        · rintro ⟨h1, h2, _⟩
          exfalso
          rcases j with _ | m
          · rw [List.getD_cons_zero] at h2
            exact hp h2
          · have := (findLastIdx_none_iff p rs).mp hfl m (by simpa using h1)
            rw [List.getD_cons_succ] at h2
            rw [this] at h2
            cases h2

lemma findLastIndexI_eq_coe_iff (p : Request → Bool) (l : List Request)
    (j : Nat) :
    ((j : Int) = findLastIndexI p l) ↔ findLastIdx? p l = some j := by
  unfold findLastIndexI
  cases h : findLastIdx? p l with
  | some k =>
    simp only [Int.natCast_inj, Option.some.injEq]
    omega
  | none =>
    constructor
    · intro hj
      have hj' : (j : Int) = -1 := hj
      exfalso
      omega
    · intro hj
      cases hj

/-! ### The redirect matcher -/

lemma matchesTarget_eq_false_of_ne (reqs : List Request) (t : String) (j : Nat)
    (h1 : (reqs.getD j default).id ≠ t)
    (h2 : trimStr (reqs.getD j default).name ≠ trimStr t) :
    matchesTarget reqs t j = false := by
  simp only [matchesTarget, Bool.or_eq_false_iff, Bool.and_eq_false_iff]
  exact ⟨beq_eq_false_iff_ne.mpr h1, Or.inl (beq_eq_false_iff_ne.mpr h2)⟩

lemma matchesTarget_of_id_eq (reqs : List Request) (t : String) (j : Nat)
    (h : (reqs.getD j default).id = t) :
    matchesTarget reqs t j = true := by
  have hb : ((reqs.getD j default).id == t) = true := beq_iff_eq.mpr h
  simp only [matchesTarget, hb, Bool.true_or]

lemma matchesTarget_iff_of_id_ne (reqs : List Request) (t : String) (j : Nat)
    (hid : (reqs.getD j default).id ≠ t) :
    matchesTarget reqs t j = true ↔
      (trimStr (reqs.getD j default).name = trimStr t ∧
        findLastIdx? (fun r => trimStr r.name == trimStr t) reqs = some j) := by
  simp only [matchesTarget, Bool.or_eq_true, Bool.and_eq_true, beq_iff_eq,
    findLastIndexI_eq_coe_iff]
  constructor
  · rintro (h | h)
    · exact absurd h hid
    · exact h
  · intro h
    exact Or.inr h

/-! ### Registry liveness through successful loop exits -/

lemma stepBody_ok_registry_ne_none (env : Env) (i j : Nat) (st st' : RunSt)
    (h : stepBody env i j st = .ok st') : st'.registry ≠ none := by
  simp only [stepBody] at h
  split at h
  · cases h
  · split at h
    · cases h
    · split at h
      · cases h
        assumption
      · split at h
        · cases h
        · rcases hf : (env.exec i j).fails with _ | msg
          · rw [hf] at h
            cases h
            exact stepOk_registry_ne_none env i _ j
          · rw [hf] at h
            cases h

lemma runReqList_ok_registry_ne_none (env : Env) (i : Nat) :
    ∀ (js : List Nat) (st st' : RunSt), st.registry ≠ none →
    runReqList env i js st = .ok st' → st'.registry ≠ none
  | [], st, st', h, e => by
    cases e
    exact h
  | j :: js, st, st', h, e => by
    cases hb : stepBody env i j st with
    | ok st1 =>
      rw [runReqList_cons_ok env i j js st st1 hb] at e
      exact runReqList_ok_registry_ne_none env i js st1 st'
        (stepBody_ok_registry_ne_none env i j st st1 hb) e
    | error e' =>
      rw [runReqList_cons_error env i j js st e' hb] at e
      cases e

lemma runIter_ok_registry_ne_none (env : Env) (i : Nat) (st st'' : RunSt)
    (h : st.registry ≠ none) (e : runIter env i st = .ok st'') :
    st''.registry ≠ none := by
  rw [runIter_eq] at e
  cases hr : runReqList env i (List.range env.requests.length)
      { st with next := "", curIterRes := [] } with
  | ok st' =>
    rw [hr] at e
    cases e
    exact runReqList_ok_registry_ne_none env i _ _ st' (by simpa using h) hr
  | error e' =>
    rw [hr] at e
    cases e

lemma runIters_ok_registry_ne_none (env : Env) :
    ∀ (is : List Nat) (st st' : RunSt), st.registry ≠ none →
    runIters env is st = .ok st' → st'.registry ≠ none
  | [], st, st', h, e => by
    cases e
    exact h
  | i :: is, st, st', h, e => by
    cases hb : runIter env i st with
    | ok st1 =>
      rw [runIters_cons_ok env i is st st1 hb] at e
      exact runIters_ok_registry_ne_none env is st1 st'
        (runIter_ok_registry_ne_none env i st st1 h hb) e
    | error e' =>
      rw [runIters_cons_error env i is st e' hb] at e
      cases e

/-! ### The dispatch-trace invariant -/

lemma goodDispatches_append_mk (env : Env) (i j : Nat) (l : List DispatchEv)
    (h : goodDispatches l) :
    goodDispatches (l ++ [mkDispatch env i j]) := by
  intro ev hev
  rcases List.mem_append.mp hev with hl | hr
  · exact h ev hl
  · simp only [List.mem_singleton] at hr
    subst hr
    rfl

lemma stepBody_goodDispatches (env : Env) (i j : Nat) (st : RunSt)
    (h : goodDispatches st.dispatches) :
    goodDispatches (stOf (stepBody env i j st)).dispatches := by
  simp only [stepBody]
  split
  · exact h
  · split
    · exact h
    · split
      · exact h
      · split
        · exact h
        · rcases hf : (env.exec i j).fails with _ | msg
          · exact goodDispatches_append_mk env i j _ h
          · exact goodDispatches_append_mk env i j _ h

lemma runReqList_goodDispatches (env : Env) (i : Nat) :
    ∀ (js : List Nat) (st : RunSt), goodDispatches st.dispatches →
    goodDispatches (stOf (runReqList env i js st)).dispatches
  | [], _, h => h
  | j :: js, st, h => by
    cases hb : stepBody env i j st with
    | ok st1 =>
      rw [runReqList_cons_ok env i j js st st1 hb]
      have := stepBody_goodDispatches env i j st h
      rw [hb] at this
      exact runReqList_goodDispatches env i js st1 this
    | error e' =>
      rw [runReqList_cons_error env i j js st e' hb]
      have := stepBody_goodDispatches env i j st h
      rw [hb] at this
      exact this

lemma runIter_goodDispatches (env : Env) (i : Nat) (st : RunSt)
    (h : goodDispatches st.dispatches) :
    goodDispatches (stOf (runIter env i st)).dispatches := by
  rw [runIter_eq]
  cases hr : runReqList env i (List.range env.requests.length)
      { st with next := "", curIterRes := [] } with
  | ok st' =>
    have := runReqList_goodDispatches env i (List.range env.requests.length)
      { st with next := "", curIterRes := [] } h
    rw [hr] at this
    exact this
  | error e' =>
    have := runReqList_goodDispatches env i (List.range env.requests.length)
      { st with next := "", curIterRes := [] } h
    rw [hr] at this
    exact this

lemma runIters_goodDispatches (env : Env) :
    ∀ (is : List Nat) (st : RunSt), goodDispatches st.dispatches →
    goodDispatches (stOf (runIters env is st)).dispatches
  | [], _, h => h
  | i :: is, st, h => by
    cases hb : runIter env i st with
    | ok st1 =>
      rw [runIters_cons_ok env i is st st1 hb]
      have := runIter_goodDispatches env i st h
      rw [hb] at this
      exact runIters_goodDispatches env is st1 this
    | error e' =>
      rw [runIters_cons_error env i is st e' hb]
      have := runIter_goodDispatches env i st h
      rw [hb] at this
      exact this

/-! ### Support for runs that stop at a given point -/

lemma except_bind_ok {ε α β : Type} (a : α) (f : α → Except ε β) :
    (Except.ok a : Except ε α).bind f = f a := rfl

lemma except_bind_error {ε α β : Type} (e : ε) (f : α → Except ε β) :
    (Except.error e : Except ε α).bind f = .error e := rfl

lemma range_split (M j : Nat) (h : j ≤ M) :
    List.range M = List.range j ++ List.range' j (M - j) := by
  have happ := List.range'_append_1 0 j (M - j)
  rw [Nat.zero_add] at happ
  rw [List.range_eq_range', List.range_eq_range', happ]
  congr 1
  omega

lemma foldl_stepOk_next (env : Env) (i : Nat) : ∀ (js : List Nat) (st : RunSt),
    (∀ j ∈ js, (env.exec i j).next = "") → st.next = "" →
    (js.foldl (stepOk env i) st).next = ""
  | [], _, _, h => h
  | j :: js, st, hall, _ => by
    rw [List.foldl_cons]
    exact foldl_stepOk_next env i js (stepOk env i st j)
      (fun j' hj' => hall j' (List.mem_cons_of_mem j hj'))
      (stepOk_next_of_no_redirect env i st j (hall j (by simp)))

lemma foldl_stepOk_registry_ne_none (env : Env) (i : Nat) (js : List Nat)
    (st : RunSt) (h : st.registry ≠ none) :
    (js.foldl (stepOk env i) st).registry ≠ none := by
  rw [foldl_stepOk_registry]
  exact getLastD_somes_ne_none _ js st.registry h

lemma registry_erase_dispatches (st : RunSt) :
    ({ st with registry := none } : RunSt).dispatches = st.dispatches := rfl

lemma registry_erase_testCtx (st : RunSt) :
    ({ st with registry := none } : RunSt).testCtx = st.testCtx := rfl

lemma stepFailSt_dispatches (env : Env) (i : Nat) (st : RunSt) (j : Nat) :
    (stepFailSt env i st j).dispatches = st.dispatches ++ [mkDispatch env i j] :=
  rfl

lemma stepFailSt_testCtx (env : Env) (i : Nat) (st : RunSt) (j : Nat) :
    (stepFailSt env i st j).testCtx = st.testCtx := rfl

/-- A run whose environment is uniform everywhere except at `(i0, j0)`,
where the step throws, reaches exactly that point: all earlier iterations
complete, iteration `i0` executes requests `0 … j0 - 1`, and the loop result
is the thrown error with the state produced at `(i0, j0)`. -/
lemma runIters_stops_at (env : Env) (i0 j0 : Nat) (msg : String)
    (stE : RunSt → RunSt)
    (huni : ∀ i j, ¬(i = i0 ∧ j = j0) → uniformAt env i j)
    (hi : i0 < env.iterations) (hj : j0 < env.requests.length)
    (hstep : ∀ st : RunSt, st.next = "" → st.registry ≠ none →
      stepBody env i0 j0 st = .error (msg, stE st)) :
    runIters env (List.range env.iterations) (initState env) =
      .error (msg, stE ((List.range j0).foldl (stepOk env i0)
        { ((List.range i0).foldl (iterOk env) (initState env)) with
          next := "", curIterRes := [] })) := by
  have hpre : runIters env (List.range i0) (initState env) =
      .ok ((List.range i0).foldl (iterOk env) (initState env)) := by
    apply runIters_uniform env _ _ ?_ (by simp [initState])
    intro i hi' j _
    have hilt := List.mem_range.mp hi'
    exact huni i j (fun hh => by
      obtain ⟨h1, _⟩ := hh
      omega)
  have hregPre : ((List.range i0).foldl (iterOk env) (initState env)).registry ≠
      none :=
    foldl_iterOk_registry_ne_none env _ _ (by simp [initState])
  have hinner : runReqList env i0 (List.range j0)
      { ((List.range i0).foldl (iterOk env) (initState env)) with
        next := "", curIterRes := [] } =
      .ok ((List.range j0).foldl (stepOk env i0)
        { ((List.range i0).foldl (iterOk env) (initState env)) with
          next := "", curIterRes := [] }) := by
    apply runReqList_uniform env i0 _ _ ?_ rfl ?_
    · intro j hj'
      have hjlt := List.mem_range.mp hj'
      exact huni i0 j (fun hh => by
        obtain ⟨_, h2⟩ := hh
        omega)
    · exact hregPre
  have hPnext : ((List.range j0).foldl (stepOk env i0)
      { ((List.range i0).foldl (iterOk env) (initState env)) with
        next := "", curIterRes := [] }).next = "" := by
    apply foldl_stepOk_next env i0 _ _ ?_ rfl
    intro j hj'
    have hjlt := List.mem_range.mp hj'
    exact (huni i0 j (fun hh => by
      obtain ⟨_, h2⟩ := hh
      omega)).1
  have hPreg : ((List.range j0).foldl (stepOk env i0)
      { ((List.range i0).foldl (iterOk env) (initState env)) with
        next := "", curIterRes := [] }).registry ≠ none :=
    foldl_stepOk_registry_ne_none env i0 _ _ hregPre
  rw [range_split env.iterations i0 (Nat.le_of_lt hi), runIters_append, hpre,
    except_bind_ok]
  have hNi : env.iterations - i0 = (env.iterations - i0 - 1) + 1 := by omega
  rw [hNi, List.range'_succ]
  apply runIters_cons_error
  rw [runIter_eq, range_split env.requests.length j0 (Nat.le_of_lt hj),
    runReqList_append, hinner, except_bind_ok]
  have hMj : env.requests.length - j0 = (env.requests.length - j0 - 1) + 1 := by
    omega
  rw [hMj, List.range'_succ,
    runReqList_cons_error env i0 j0 _ _ _ (hstep _ hPnext hPreg),
    except_bind_error]

lemma stops_at_P_dispatches (env : Env) (i0 j0 : Nat) :
    ((List.range j0).foldl (stepOk env i0)
      { ((List.range i0).foldl (iterOk env) (initState env)) with
        next := "", curIterRes := [] }).dispatches =
      ((List.range i0).map (fun i =>
        (List.range env.requests.length).map (mkDispatch env i))).flatten ++
        (List.range j0).map (mkDispatch env i0) := by
  rw [foldl_stepOk_dispatches]
  congr 1
  show ((List.range i0).foldl (iterOk env) (initState env)).dispatches = _
  rw [foldl_iterOk_dispatches]
  rfl

lemma map_iter_idx_mkDispatch (env : Env) (i : Nat) : ∀ (l : List Nat),
    (l.map (mkDispatch env i)).map (fun d => (d.iter, d.idx)) =
      l.map (fun j => (i, j))
  | [] => rfl
  | a :: t => by
    simp only [List.map_cons, map_iter_idx_mkDispatch env i t]
    rfl

lemma map_pairs_flatten (env : Env) (n : Nat) : ∀ (l : List Nat),
    ((l.map (fun i => (List.range n).map (mkDispatch env i))).flatten).map
      (fun d => (d.iter, d.idx)) =
      (l.map (fun i => (List.range n).map (fun j => (i, j)))).flatten
  | [] => rfl
  | a :: t => by
    simp only [List.map_cons, List.flatten_cons, List.map_append,
      map_pairs_flatten env n t, map_iter_idx_mkDispatch]

lemma stops_at_P_iterationResults (env : Env) (i0 j0 : Nat) :
    ((List.range j0).foldl (stepOk env i0)
      { ((List.range i0).foldl (iterOk env) (initState env)) with
        next := "", curIterRes := [] }).testCtx.iterationResults =
      (List.range i0).map (fun i =>
        (List.range env.requests.length).map (mkReqRes env i)) := by
  rw [foldl_stepOk_iterationResults]
  show ((List.range i0).foldl (iterOk env) (initState env)).testCtx.iterationResults = _
  rw [foldl_iterOk_iterationResults]
  rfl

/-! ### Claim theorems -/

/-- C1: for every run in which no request signals a redirect and no step
fails or is cancelled, the action succeeds and the persisted record's
`iterationResults` is exactly the iteration-indexed grid of per-request
rows: `iterations` many inner sequences, each listing one
`RunnerResultPerRequest` per selected request, in request-list order. -/
theorem C1_no_redirect_full_grid (env : Env)
    (hu : ∀ i j, uniformAt env i j) :
    (runCollectionAction env).outcome = .success ∧
    ∀ rec ∈ (runCollectionAction env).persisted,
      rec.iterationResults =
        (List.range env.iterations).map (fun i =>
          (List.range env.requests.length).map (fun j => mkReqRes env i j)) ∧
      rec.iterationResults.length = env.iterations ∧
      ∀ seq ∈ rec.iterationResults, seq.length = env.requests.length := by
  have hrun := runIters_uniform env (List.range env.iterations) (initState env)
    (fun i _ j _ => hu i j) (by simp [initState])
  have hctx : ((List.range env.iterations).foldl (iterOk env)
      (initState env)).testCtx.iterationResults =
      (List.range env.iterations).map (fun i =>
        (List.range env.requests.length).map (fun j => mkReqRes env i j)) := by
    rw [foldl_iterOk_iterationResults]
    rfl
  constructor
  · unfold runCollectionAction
    rw [hrun]
  · intro rec hrec
    unfold runCollectionAction at hrec
    rw [hrun] at hrec
    simp only [List.mem_singleton] at hrec
    subst hrec
    refine ⟨?_, ?_, ?_⟩
    · exact hctx
    · show ((List.range env.iterations).foldl (iterOk env)
        (initState env)).testCtx.iterationResults.length = env.iterations
      rw [hctx]
      simp
    · show ∀ seq ∈ ((List.range env.iterations).foldl (iterOk env)
        (initState env)).testCtx.iterationResults,
        seq.length = env.requests.length
      rw [hctx]
      intro seq hseq
      simp only [List.mem_map] at hseq
      obtain ⟨i, _, rfl⟩ := hseq
      simp

/-- C1 witness: the end-to-end example, two iterations over two requests
with no redirects. -/
theorem C1_witness :
    (∀ i j, uniformAt envC1w i j) ∧
    (runCollectionAction envC1w).outcome = .success :=
  ⟨fun _ _ => ⟨rfl, rfl, rfl, rfl⟩,
    (C1_no_redirect_full_grid envC1w (fun _ _ => ⟨rfl, rfl, rfl, rfl⟩)).1⟩

/-- C2: whatever the outcome — normal completion, a thrown failure, or
cancellation — the `finally` step persists exactly one record, built from
the accumulated context held at the end of the run. -/
theorem C2_finally_persists_once (env : Env) :
    (runCollectionAction env).persisted =
      [mkPersistedRecord (runCollectionAction env).final.testCtx] := by
  unfold runCollectionAction
  cases runIters env (List.range env.iterations) (initState env) with
  | ok st => rfl
  | error e =>
    obtain ⟨msg, st⟩ := e
    rfl

/-- C3 counterexample: cancelling before request index 1 of the only
iteration stops the run after request 0 was dispatched, yet the persisted
record's `iterationResults` is empty — the in-progress iteration's partial
results (the row for index 0) are not persisted, contradicting the claim
that the persisted `iterationResults` holds exactly the entries for
indices `< j` of the in-progress iteration. -/
theorem C3_counterexample :
    (runCollectionAction envC3cex).outcome =
      .errorRedirect "Runner has been stopped" ∧
    (runCollectionAction envC3cex).final.dispatches.map DispatchEv.idx = [0] ∧
    (runCollectionAction envC3cex).persisted.map
      PersistedRecord.iterationResults = [[]] :=
  ⟨rfl, rfl, rfl⟩

/-- C3 (amended): removing the registry entry before the liveness check at
iteration `i0`, request index `j0`, stops the run before dispatching
request `j0` — exactly the full iterations before `i0` and the first `j0`
requests of iteration `i0` were dispatched — and the finalization step
still persists one record; but that record's `iterationResults` contains
only the `i0` completed iterations: the in-progress iteration's partial
rows are absent from it. -/
theorem C3_cancellation_amended (env : Env) (i0 j0 : Nat)
    (hn : ∀ i j, (env.exec i j).next = "")
    (hf : ∀ i j, (env.exec i j).fails = none)
    (hm : ∀ i j, env.metaMissing i j = false)
    (hc : ∀ i j, env.cancelBefore i j = (i == i0 && j == j0))
    (hi : i0 < env.iterations)
    (hj : j0 < env.requests.length) :
    (runCollectionAction env).outcome =
      .errorRedirect "Runner has been stopped" ∧
    (runCollectionAction env).final.dispatches.map (fun d => (d.iter, d.idx)) =
      ((List.range i0).map (fun i =>
        (List.range env.requests.length).map (fun j => (i, j)))).flatten ++
        (List.range j0).map (fun j => (i0, j)) ∧
    (runCollectionAction env).persisted.map PersistedRecord.iterationResults =
      [(List.range i0).map (fun i =>
        (List.range env.requests.length).map (fun j => mkReqRes env i j))] := by
  have huni : ∀ i j, ¬(i = i0 ∧ j = j0) → uniformAt env i j := by
    intro i j hne
    refine ⟨hn i j, hf i j, hm i j, ?_⟩
    rw [hc i j]
    cases hb : (i == i0 && j == j0) with
    | false => rfl
    | true =>
      exfalso
      simp only [Bool.and_eq_true, beq_iff_eq] at hb
      exact hne hb
  have hcAt : env.cancelBefore i0 j0 = true := by
    rw [hc i0 j0]
    simp
  have hstops := runIters_stops_at env i0 j0 "Runner has been stopped"
    (fun st => { st with registry := none }) huni hi hj
    (fun st _ _ => stepBody_cancelled env i0 j0 st hcAt)
  have hdisp := stops_at_P_dispatches env i0 j0
  have hres := stops_at_P_iterationResults env i0 j0
  unfold runCollectionAction
  rw [hstops]
  refine ⟨rfl, ?_, ?_⟩
  · have h1 : (cancelExecution { ((List.range j0).foldl (stepOk env i0)
        { ((List.range i0).foldl (iterOk env) (initState env)) with
          next := "", curIterRes := [] }) with registry := none }).dispatches =
        ((List.range i0).map (fun i =>
          (List.range env.requests.length).map (mkDispatch env i))).flatten ++
          (List.range j0).map (mkDispatch env i0) := by
      rw [cancelExecution_dispatches, registry_erase_dispatches, hdisp]
    have h2 : (((List.range i0).map (fun i =>
        (List.range env.requests.length).map (mkDispatch env i))).flatten ++
        (List.range j0).map (mkDispatch env i0)).map (fun d => (d.iter, d.idx)) =
        ((List.range i0).map (fun i =>
          (List.range env.requests.length).map (fun j => (i, j)))).flatten ++
          (List.range j0).map (fun j => (i0, j)) := by
      rw [List.map_append, map_pairs_flatten, map_iter_idx_mkDispatch]
    exact (congrArg (List.map (fun d => (d.iter, d.idx))) h1).trans h2
  · have h3 : (cancelExecution { ((List.range j0).foldl (stepOk env i0)
        { ((List.range i0).foldl (iterOk env) (initState env)) with
          next := "", curIterRes := [] }) with registry := none
        }).testCtx.iterationResults =
        (List.range i0).map (fun i =>
          (List.range env.requests.length).map (mkReqRes env i)) := by
      rw [cancelExecution_testCtx, registry_erase_testCtx, hres]
    exact congrArg (fun l => [l]) h3

/-- C3 witness: cancelling at iteration 1, request index 1 of a two-by-two
run yields the cancellation redirect, and the persisted record holds
exactly the one completed iteration. -/
theorem C3_witness :
    (runCollectionAction envC3w).outcome =
      .errorRedirect "Runner has been stopped" ∧
    (runCollectionAction envC3w).persisted.map
      PersistedRecord.iterationResults =
      [(List.range 1).map (fun i =>
        (List.range envC3w.requests.length).map
          (fun j => mkReqRes envC3w i j))] :=
  ⟨(C3_cancellation_amended envC3w 1 1 (fun _ _ => rfl) (fun _ _ => rfl)
      (fun _ _ => rfl) (fun _ _ => rfl) (by decide) (by decide)).1,
    (C3_cancellation_amended envC3w 1 1 (fun _ _ => rfl) (fun _ _ => rfl)
      (fun _ _ => rfl) (fun _ _ => rfl) (by decide) (by decide)).2.2⟩

/-- C4 counterexample: a run that completes normally leaves its
execution-registry entry in place, holding the last dispatched request id,
instead of removing it — the claimed removal on normal completion does not
happen. -/
theorem C4_counterexample :
    (runCollectionAction envC4cex).outcome = .success ∧
    (runCollectionAction envC4cex).final.registry = some "r1" :=
  ⟨rfl, rfl⟩

/-- C4 (amended): the registry entry is created holding the empty string at
run start; at every recorded dispatch the entry holds exactly the id of the
request being dispatched; and on normal completion the entry is *not*
removed — the final registry entry is still present. -/
theorem C4_registry_amended (env : Env) :
    (initState env).registry = some "" ∧
    (∀ ev ∈ (runCollectionAction env).final.dispatches,
      ev.registryAt = some ev.reqId) ∧
    ((runCollectionAction env).outcome = .success →
      (runCollectionAction env).final.registry ≠ none) := by
  refine ⟨rfl, ?_, ?_⟩
  · have h := runIters_goodDispatches env (List.range env.iterations)
      (initState env) (fun ev hev => absurd hev (List.not_mem_nil ev))
    unfold runCollectionAction
    cases hr : runIters env (List.range env.iterations) (initState env) with
    | ok st =>
      rw [hr] at h
      exact h
    | error e =>
      obtain ⟨msg, st⟩ := e
      rw [hr] at h
      intro ev hev
      have hev' : ev ∈ (cancelExecution st).dispatches := hev
      rw [cancelExecution_dispatches] at hev'
      exact h ev hev'
  · intro hsucc
    unfold runCollectionAction at hsucc ⊢
    cases hr : runIters env (List.range env.iterations) (initState env) with
    | ok st =>
      exact runIters_ok_registry_ne_none env (List.range env.iterations)
        (initState env) st (by simp [initState]) hr
    | error e =>
      obtain ⟨msg, st⟩ := e
      rw [hr] at hsucc
      have hsucc' : Outcome.errorRedirect msg = Outcome.success := hsucc
      cases hsucc'

/-- C4 witness: a concrete normal run succeeds and its registry entry is
still present afterwards. -/
theorem C4_registry_amended_witness :
    (runCollectionAction envC4w).outcome = .success ∧
    (runCollectionAction envC4w).final.registry ≠ none :=
  ⟨rfl, (C4_registry_amended envC4w).2.2 rfl⟩

/-- C5: when the request executed at index `k` has signalled a redirect to
the id of request `m` (with `k < m < length`), and that id identifies
request `m` uniquely among the intermediate candidates, the inner loop over
indices `k+1 … m` skips every request strictly between `k` and `m` — none
of them touches the state — and then executes request `m`, appending
exactly its result row and its dispatch. -/
theorem C5_redirect_by_id_skips (env : Env) (i k m : Nat) (st : RunSt)
    (hkm : k < m) (_hm : m < env.requests.length)
    (htgt : st.next = (env.requests.getD m default).id)
    (hne : (env.requests.getD m default).id ≠ "")
    (hskip : ∀ j, j < m → k < j →
      (env.requests.getD j default).id ≠ (env.requests.getD m default).id ∧
      trimStr (env.requests.getD j default).name ≠
        trimStr (env.requests.getD m default).id)
    (hcancel : ∀ j, j ≤ m → k < j → env.cancelBefore i j = false)
    (hreg : st.registry ≠ none)
    (hmeta : env.metaMissing i m = false)
    (hfail : (env.exec i m).fails = none) :
    runReqList env i (List.range' (k + 1) (m - k)) st =
      .ok (stepOk env i st m) ∧
    (stepOk env i st m).curIterRes = st.curIterRes ++ [mkReqRes env i m] ∧
    (stepOk env i st m).dispatches = st.dispatches ++ [mkDispatch env i m] := by
  refine ⟨?_, rfl, rfl⟩
  have hsplit : List.range' (k + 1) (m - k) =
      List.range' (k + 1) (m - k - 1) ++ [m] := by
    have happ := List.range'_append_1 (k + 1) (m - k - 1) 1
    rw [List.range'_one] at happ
    rw [show k + 1 + (m - k - 1) = m by omega] at happ
    rw [show 1 + (m - k - 1) = m - k by omega] at happ
    exact happ.symm
  rw [hsplit, runReqList_append]
  have hskipped : runReqList env i (List.range' (k + 1) (m - k - 1)) st =
      .ok st := by
    apply runReqList_skip_all env i _ st ?_ ?_ hreg
    · rw [htgt]
      exact hne
    · intro j hjmem
      have hjb := List.mem_range'_1.mp hjmem
      have h1 : k < j := by omega
      have h2 : j < m := by omega
      obtain ⟨hid, hnm⟩ := hskip j h2 h1
      refine ⟨?_, hcancel j (by omega) h1⟩
      rw [htgt]
      exact matchesTarget_eq_false_of_ne env.requests _ j hid hnm
  rw [hskipped, except_bind_ok]
  have hmatch : matchesTarget env.requests st.next m = true := by
    rw [htgt]
    exact matchesTarget_of_id_eq env.requests _ m rfl
  rw [runReqList_cons_ok env i m [] st (stepOk env i st m)
    (stepBody_run env i m st (hcancel m (by omega) (by omega)) hreg
      (Or.inr hmatch) hmeta hfail)]
  rfl

/-- C5 witness: requests `r1 r2 r3`, pending redirect to the id `r3` set by
index 0 — the loop over indices 1, 2 skips request 1 and executes
request 2. -/
theorem C5_witness :
    runReqList envC5w 0 (List.range' 1 2) stC5w =
      .ok (stepOk envC5w 0 stC5w 2) :=
  (C5_redirect_by_id_skips envC5w 0 0 2 stC5w (by decide) (by decide) rfl
    (by decide) (by decide) (by decide) (by decide) rfl rfl).1

/-- C6: a candidate that does not match the pending target by id matches
exactly when its trimmed name equals the trimmed target and it is the last
index in the whole request list whose trimmed name equals the target. -/
theorem C6_name_match_last_index (reqs : List Request) (t : String) (j : Nat)
    (hj : j < reqs.length)
    (hid : (reqs.getD j default).id ≠ t) :
    matchesTarget reqs t j = true ↔
      (trimStr (reqs.getD j default).name = trimStr t ∧
        ∀ j', j' < reqs.length → j < j' →
          trimStr (reqs.getD j' default).name ≠ trimStr t) := by
  rw [matchesTarget_iff_of_id_ne reqs t j hid, findLastIdx_some_iff]
  constructor
  · rintro ⟨h1, _, _, h3⟩
    refine ⟨h1, ?_⟩
    intro j' hlen hgt
    exact beq_eq_false_iff_ne.mp (h3 j' hgt hlen)
  · rintro ⟨h1, h2⟩
    refine ⟨h1, hj, by simpa using h1, ?_⟩
    intro j' hgt hlen
    exact beq_eq_false_iff_ne.mpr (h2 j' hlen hgt)

/-- C6 witness: requests named `A`, `B`, `A` and target `A` — index 2, the
last `A`, matches; index 0 does not. -/
theorem C6_witness :
    matchesTarget reqsC6w "A" 2 = true ∧
    matchesTarget reqsC6w "A" 0 = false := by
  constructor
  · exact (C6_name_match_last_index reqsC6w "A" 2 (by decide) (by decide)).mpr
      ⟨by decide, by decide⟩
  · decide

/-- C7: a pending redirect target that matches no remaining request — not
by id, and not by trimmed name carried by the last index bearing that
name — causes every remaining request of the iteration to be skipped: the
inner loop returns the state unchanged, completing normally rather than
with an error. -/
theorem C7_unresolvable_redirect_skips_rest (env : Env) (i : Nat)
    (js : List Nat) (st : RunSt)
    (hne : st.next ≠ "")
    (hnomatch : ∀ j ∈ js,
      (env.requests.getD j default).id ≠ st.next ∧
      ¬(trimStr (env.requests.getD j default).name = trimStr st.next ∧
        j < env.requests.length ∧
        ∀ j', j' < env.requests.length → j < j' →
          trimStr (env.requests.getD j' default).name ≠ trimStr st.next))
    (hcancel : ∀ j ∈ js, env.cancelBefore i j = false)
    (hreg : st.registry ≠ none) :
    runReqList env i js st = .ok st := by
  apply runReqList_skip_all env i js st hne ?_ hreg
  intro j hj
  refine ⟨?_, hcancel j hj⟩
  obtain ⟨h1, h2⟩ := hnomatch j hj
  cases hmt : matchesTarget env.requests st.next j with
  | false => rfl
  | true =>
    exfalso
    obtain ⟨hname, hfl⟩ :=
      (matchesTarget_iff_of_id_ne env.requests st.next j h1).mp hmt
    obtain ⟨hlen, _, hlater⟩ :=
      (findLastIdx_some_iff (fun r => trimStr r.name == trimStr st.next)
        env.requests j).mp hfl
    exact h2 ⟨hname, hlen, fun j' hl hg =>
      beq_eq_false_iff_ne.mp (hlater j' hg hl)⟩

/-- C7 witness: pending target `nope` matches nothing among indices
0, 1, 2, so the whole rest of the iteration is skipped and the state comes
back unchanged. -/
theorem C7_witness : runReqList envC7w 0 [0, 1, 2] stC7w = .ok stC7w :=
  C7_unresolvable_redirect_skips_rest envC7w 0 [0, 1, 2] stC7w (by decide)
    (by decide) (by decide) (by decide)

/-- C8: the per-iteration data binding returns upload entry `i` when
`i < N`, wraps to entry `(i + 1) % N` when `i ≥ N > 0`, and returns nothing
when no upload data exists. -/
theorem C8_upload_data_binding (envs : List UserUploadEnvironment) (i : Nat) :
    (envs.length = 0 → getCurIterationUserUploadData envs i = none) ∧
    (i < envs.length →
      getCurIterationUserUploadData envs i = some (envs.getD i default)) ∧
    (0 < envs.length → envs.length ≤ i →
      getCurIterationUserUploadData envs i =
        some (envs.getD ((i + 1) % envs.length) default)) := by
  refine ⟨?_, ?_, ?_⟩
  · intro h
    unfold getCurIterationUserUploadData
    rw [if_neg (by omega)]
  · intro h
    unfold getCurIterationUserUploadData
    rw [if_pos (by omega), if_pos (by omega), List.getD_eq_getElem?_getD,
      List.get?_eq_getElem?, List.getElem?_eq_getElem h]
    rfl
  · intro h0 hge
    have hlt : (i + 1) % envs.length < envs.length := Nat.mod_lt _ h0
    unfold getCurIterationUserUploadData
    rw [if_pos (by omega), if_neg (by omega), List.getD_eq_getElem?_getD,
      List.get?_eq_getElem?, List.getElem?_eq_getElem hlt]
    rfl

/-- C8 witness: with two upload entries, iteration index 2 wraps to
entry `(2 + 1) % 2 = 1`. -/
theorem C8_witness :
    getCurIterationUserUploadData [uploadA, uploadB] 2 =
      some ([uploadA, uploadB].getD ((2 + 1) % 2) default) :=
  (C8_upload_data_binding [uploadA, uploadB] 2).2.2 (by decide) (by decide)

/-- C9: when the executor throws at iteration `i0`, request index `j0`, in
an otherwise uniform run, the action aborts all remaining requests and
iterations immediately — the dispatch trace ends with `(i0, j0)` — and
control returns through the error-reporting redirect carrying the failure
message; the failure is not re-raised past `runCollectionAction`, whose
result is an ordinary value. -/
theorem C9_failure_aborts_run (env : Env) (i0 j0 : Nat) (msg : String)
    (hn : ∀ i j, (env.exec i j).next = "")
    (hm : ∀ i j, env.metaMissing i j = false)
    (hc : ∀ i j, env.cancelBefore i j = false)
    (hf : ∀ i j, ¬(i = i0 ∧ j = j0) → (env.exec i j).fails = none)
    (hfail : (env.exec i0 j0).fails = some msg)
    (hi : i0 < env.iterations)
    (hj : j0 < env.requests.length) :
    (runCollectionAction env).outcome = .errorRedirect msg ∧
    (runCollectionAction env).final.dispatches.map (fun d => (d.iter, d.idx)) =
      ((List.range i0).map (fun i =>
        (List.range env.requests.length).map (fun j => (i, j)))).flatten ++
        (List.range (j0 + 1)).map (fun j => (i0, j)) ∧
    (runCollectionAction env).persisted.map PersistedRecord.iterationResults =
      [(List.range i0).map (fun i =>
        (List.range env.requests.length).map (fun j => mkReqRes env i j))] := by
  have huni : ∀ i j, ¬(i = i0 ∧ j = j0) → uniformAt env i j :=
    fun i j hne => ⟨hn i j, hf i j hne, hm i j, hc i j⟩
  have hstops := runIters_stops_at env i0 j0 msg
    (fun st => stepFailSt env i0 st j0) huni hi hj
    (fun st h1 h2 => stepBody_execFails env i0 j0 st msg (hc i0 j0) h2
      (Or.inl h1) (hm i0 j0) hfail)
  have hdisp := stops_at_P_dispatches env i0 j0
  have hres := stops_at_P_iterationResults env i0 j0
  unfold runCollectionAction
  rw [hstops]
  refine ⟨rfl, ?_, ?_⟩
  · have h1 : (cancelExecution (stepFailSt env i0
        ((List.range j0).foldl (stepOk env i0)
          { ((List.range i0).foldl (iterOk env) (initState env)) with
            next := "", curIterRes := [] }) j0)).dispatches =
        (((List.range i0).map (fun i =>
          (List.range env.requests.length).map (mkDispatch env i))).flatten ++
          (List.range j0).map (mkDispatch env i0)) ++ [mkDispatch env i0 j0] := by
      rw [cancelExecution_dispatches, stepFailSt_dispatches, hdisp]
    have h2 : ((((List.range i0).map (fun i =>
        (List.range env.requests.length).map (mkDispatch env i))).flatten ++
        (List.range j0).map (mkDispatch env i0)) ++
        [mkDispatch env i0 j0]).map (fun d => (d.iter, d.idx)) =
        ((List.range i0).map (fun i =>
          (List.range env.requests.length).map (fun j => (i, j)))).flatten ++
          (List.range (j0 + 1)).map (fun j => (i0, j)) := by
      rw [List.range_succ]
      simp only [List.map_append, map_pairs_flatten, map_iter_idx_mkDispatch,
        List.map_singleton, List.append_assoc]
      rfl
    exact (congrArg (List.map (fun d => (d.iter, d.idx))) h1).trans h2
  · have h3 : (cancelExecution (stepFailSt env i0
        ((List.range j0).foldl (stepOk env i0)
          { ((List.range i0).foldl (iterOk env) (initState env)) with
            next := "", curIterRes := [] }) j0)).testCtx.iterationResults =
        (List.range i0).map (fun i =>
          (List.range env.requests.length).map (mkReqRes env i)) := by
      rw [cancelExecution_testCtx, stepFailSt_testCtx, hres]
    exact congrArg (fun l => [l]) h3

/-- C9 witness: the executor throws `boom` at iteration 0, request index 1
of a two-by-two run, and the action returns the error redirect carrying
`boom`. -/
theorem C9_witness :
    (runCollectionAction envC9w).outcome = .errorRedirect "boom" := by
  have hn : ∀ i j, (envC9w.exec i j).next = "" := by
    intro i j
    simp only [envC9w]
    split
    · rfl
    · rfl
  have hf : ∀ i j, ¬(i = 0 ∧ j = 1) → (envC9w.exec i j).fails = none := by
    intro i j hne
    simp only [envC9w]
    have hb : ¬((i == 0 && j == 1) = true) := by
      simp only [Bool.and_eq_true, beq_iff_eq]
      exact hne
    rw [if_neg hb]
  exact (C9_failure_aborts_run envC9w 0 1 "boom" hn (fun _ _ => rfl)
    (fun _ _ => rfl) hf rfl (by decide) (by decide)).1

/-- C10: calling `cancelExecution` while the registry value is the empty
string is a no-op — the state is unchanged, so the entry survives, no
`Done` step is recorded and no request cancellation is forwarded — and the
entry is removed exactly when the stored value is a non-empty request
id. -/
theorem C10_cancel_noop_on_empty (st : RunSt) :
    (st.registry = some "" → cancelExecution st = st) ∧
    (∀ r, st.registry = some r →
      ((cancelExecution st).registry = none ↔ r ≠ "")) := by
  constructor
  · intro h
    unfold cancelExecution
    rw [h]
    simp
  · intro r h
    unfold cancelExecution
    rw [h]
    by_cases hr : r ≠ ""
    · simp [hr]
    · simp [hr, h]

/-- C10 witness: `cancelExecution` on a state whose registry value is the
empty string returns that state unchanged. -/
theorem C10_witness : cancelExecution stC10w = stC10w :=
  (C10_cancel_noop_on_empty stC10w).1 rfl

end Runner
